import Mathlib

/-!
Verification development for `data/suica/osm/sfcardfan_osm.py`, the script
that reads SFCardFan fare-card data and matches it against an OpenStreetMap
export (route masters, routes and stop nodes).

Python strings are embedded as `List Char` (`Str`); Python `set`/`frozenset`
values as `Finset`; Python dicts as association lists (insertion order is the
list order, lookups scan the list); fallible operations return `Option`.
Where Python iterates over a set (whose iteration order is arbitrary), the
embedding enumerates the set in ascending order; every theorem proved below
is insensitive to that enumeration order.
-/

/-- Python `str` is embedded as a list of characters. -/
abbrev Str := List Char

/-! ### Data-normalisation constants (source lines 32-41) -/

def STATION : Str := "駅".data

def INSIDE_STATION : Str := "駅構内".data

def HON : Str := "本".data

def MAIN_LINE : Str := "本線".data

def LINE : Str := "線".data

def RAILWAY : Str := "鉄道".data

def RAILWAY_LINE : Str := "鉄道線".data

def RAPID_LINE : Str := "線快速".data

/-- The static exception table `ALT_NAMES` (source lines 44-123): a mapping
from a canonical line name to the list of known alternate spellings.
Commented-out entries of the source are omitted, as in the source. -/
def ALT_NAMES : List (Str × List Str) :=
  [ ("東海道本線".data,
      [ "JR東北本線".data, "JR京浜東北線".data, "JR湘南新宿ライン".data,
        "JR琵琶湖線".data ]),
    ("いわて銀河".data, [ "アイジーアールいわて銀河鉄道いわて銀河鉄道線".data ]),
    ("阿佐".data, [ "土佐くろしお鉄道阿佐線".data ]),
    ("中村".data, [ "土佐くろしお鉄道中村線".data ]),
    ("鶴見".data, [ "長堀鶴見緑地".data, "JR鶴見線".data ]),
    ("江差".data, [ "道南いさりび鉄道線".data ]),
    ("会津".data, [ "会津鉄道会津線".data ]),
    ("赤羽".data, [ "JR埼京線".data ]),
    ("真岡".data, [ "真岡鐵道真岡線".data ]),
    ("天竜浜名湖".data, [ "天竜浜名湖鉄道天竜浜名湖線".data ]) ]

/-- `ALT_NAMES.get(v)` of the Python source: dictionary lookup. -/
def ALT_NAMES_get (v : Str) : Option (List Str) :=
  (ALT_NAMES.find? (fun p => p.1 == v)).map (fun p => p.2)

def JUNK_CHARS : Str := "・".data

def IGNORED_LINE_PREFIXES : List Str := [ "JR ".data, "JR".data ]

def IGNORED_LINE_SUFFIXES : List Str :=
  [ MAIN_LINE, RAPID_LINE, RAILWAY_LINE, RAILWAY, HON, LINE ]

/-- `IGNORED_WORDS` (source lines 143-160): a record containing any of these
words (as a substring) is skipped. -/
def IGNORED_WORDS : List Str :=
  [ "試験".data, "Test".data, "携帯端末".data, "Suica".data, "臨時窓口".data,
    "天竜川".data, "新居町".data, "西小坂井".data, "幸田".data, "名古屋".data,
    "清洲".data, "岐阜".data, "ふるさと銀河".data ]

/-- `IGNORED_WORDS_EXACT` (source lines 162-172). -/
def IGNORED_WORDS_EXACT : List Str :=
  [ "彦根".data, "河瀬".data, "津軽".data, "海峡".data, "東海交通事業".data,
    "能登".data, "宮島航路".data ]

/-! ### Name normalisation (source lines 175-204) -/

/-- `clean_sf_station` (source lines 175-184): strips a trailing station
marker, checking `STATION` first and `INSIDE_STATION` in the `elif` branch. -/
def clean_sf_station (i : Str) : Str :=
  if STATION.isSuffixOf i then i.take (i.length - STATION.length)
  else if INSIDE_STATION.isSuffixOf i then i.take (i.length - INSIDE_STATION.length)
  else i

/-- First phase of `clean_sf_line` (source lines 189-191): append the line
marker when absent. -/
def ensure_line_marker (i : Str) : Str :=
  if LINE.isSuffixOf i then i else i ++ LINE

/-- Second phase of `clean_sf_line` (source lines 192-194): the loop over
`IGNORED_LINE_PREFIXES`, stripping each matching entry in order (the loop has
no `break`). `i[len(p):]` is `List.drop`. -/
def strip_line_prefixes (i : Str) : Str :=
  IGNORED_LINE_PREFIXES.foldl
    (fun s p => if p.isPrefixOf s then s.drop p.length else s) i

/-- Third phase of `clean_sf_line` (source lines 196-198): the loop over
`IGNORED_LINE_SUFFIXES`, stripping each matching entry in order (the loop has
no `break`). `i[:-len(u)]` is `List.take (length - length u)`. -/
def strip_line_suffixes (i : Str) : Str :=
  IGNORED_LINE_SUFFIXES.foldl
    (fun s u => if u.isSuffixOf s then s.take (s.length - u.length) else s) i

/-- Fourth phase of `clean_sf_line` (source lines 200-202): remove every
occurrence of each junk character (`str.replace(c, '')` for a single
character is `List.filter`). -/
def remove_junk_chars (i : Str) : Str :=
  JUNK_CHARS.foldl
    (fun s c => if s.contains c then s.filter (fun a => a != c) else s) i

/-- `clean_sf_line` (source lines 187-204): the four phases in sequence. -/
def clean_sf_line (i : Str) : Str :=
  remove_junk_chars (strip_line_suffixes (strip_line_prefixes (ensure_line_marker i)))

/-! ### OSM data model (source lines 214-425) -/

/-- `OsmNode` (source lines 214-242). Coordinates are exact decimals in the
source (`decimal.Decimal`), embedded as rationals. `name_ja` falls back to
the generic `name` tag at parse time; the parsing layer is not embedded, so
the field holds the resolved local name. -/
structure OsmNode where
  osm_id : ℕ
  lat : ℚ
  lon : ℚ
  name_en : Option Str
  name_ja : Str
  wikidata : Option Str
deriving DecidableEq

/-- `OsmRelation` (source lines 244-279). `stop_ids` and `relation_ids` are
`frozenset`s of integers in the source. The `db` back-reference of the
dataclass is passed explicitly to each operation instead. -/
structure OsmRelation where
  osm_id : ℕ
  route_master : Bool
  route : Bool
  name_en : Option Str
  name_ja : Str
  stop_ids : Finset ℕ
  relation_ids : Finset ℕ
  wikidata : Option Str
  operator_en : Option Str
  operator_ja : Option Str
deriving DecidableEq

/-- `OsmDatabase` (source lines 394-425): two dicts keyed by identifier,
embedded as association lists in insertion order. -/
structure OsmDatabase where
  nodes : List (ℕ × OsmNode)
  relations : List (ℕ × OsmRelation)
deriving DecidableEq

/-- `self.db.nodes.get(id)` of the source. -/
def OsmDatabase.nodesGet (db : OsmDatabase) (i : ℕ) : Option OsmNode :=
  (db.nodes.find? (fun p => p.1 == i)).map (fun p => p.2)

/-- `self.db.relations.get(id)` of the source. -/
def OsmDatabase.relGet (db : OsmDatabase) (i : ℕ) : Option OsmRelation :=
  (db.relations.find? (fun p => p.1 == i)).map (fun p => p.2)

/-! ### Recursive stop resolution (source lines 281-294 and 348-357)

`OsmRelation.all_stop_ids` increments `_current_depth` and stops recursing
once the incremented depth exceeds 10.  The recursion is re-expressed
structurally on the remaining gas `10 - _current_depth`: with gas `0` the
call returns only the direct `stop_ids` (the Python branch
`_current_depth > 10`), and with positive gas it unions the direct stops
with the recursive result for every child id whose lookup in
`db.relations` succeeds (the `isinstance(rel, OsmRelation)` test of the
source skips dangling ids, which `relations` yields as raw integers). -/

def all_stop_ids_gas (dbRel : ℕ → Option OsmRelation) : ℕ → OsmRelation → Finset ℕ
  | 0, r => r.stop_ids
  | g + 1, r =>
      r.stop_ids ∪ r.relation_ids.biUnion (fun i =>
        match dbRel i with
        | some c => all_stop_ids_gas dbRel g c
        | none => ∅)

/-- `OsmRelation.all_stop_ids(_current_depth)` (source lines 281-294). -/
def all_stop_ids (dbRel : ℕ → Option OsmRelation) (r : OsmRelation)
    (current_depth : ℕ) : Finset ℕ :=
  all_stop_ids_gas dbRel (10 - current_depth) r

/-- A stop id `s` is reachable from relation `r` through a chain of at most
`k` existing child-relation hops.  This is the specification-side notion of
"stop identifiers reachable through existing child relations within the
recursion depth bound". -/
inductive StopReachable (dbRel : ℕ → Option OsmRelation) :
    OsmRelation → ℕ → ℕ → Prop where
  | direct (r : OsmRelation) (s k : ℕ) :
      s ∈ r.stop_ids → StopReachable dbRel r s k
  | child (r c : OsmRelation) (i s k : ℕ) :
      i ∈ r.relation_ids → dbRel i = some c → StopReachable dbRel c s k →
      StopReachable dbRel r s (k + 1)

/-- Ascending enumeration of a finite set of ids.  Python iterates sets in
an arbitrary order; the embedding fixes the ascending order, and no theorem
below depends on this choice. -/
def finset_asc (s : Finset ℕ) : List ℕ :=
  (List.range (s.sup id + 1)).filter (fun i => decide (i ∈ s))

/-- `OsmRelation._lookup_stops` (source lines 296-301): looks up each id,
skipping (not yielding) any id with no node in `db.nodes`. -/
def lookup_stops (db : OsmDatabase) (ids : List ℕ) : List OsmNode :=
  ids.filterMap (fun i => db.nodesGet i)

/-- The `OsmRelation.stops` property (source lines 303-310): looks up the
direct `stop_ids` only.  Despite its docstring ("If the stop id could not
be found, returns int"), `_lookup_stops` silently drops unknown ids, so the
result contains nodes only. -/
def stops (db : OsmDatabase) (r : OsmRelation) : List OsmNode :=
  lookup_stops db (finset_asc r.stop_ids)

/-- `OsmRelation.all_stops` (source lines 312-314). -/
def all_stops (db : OsmDatabase) (r : OsmRelation) : List OsmNode :=
  lookup_stops db (finset_asc (all_stop_ids db.relGet r 0))

/-! ### Name matching (source lines 316-345) -/

/-- The first loop of `name_matches` (source lines 328-335), over
`IGNORED_LINE_PREFIXES`, with `name` initially `self.name_ja`.  `none`
means the Python loop executed `return True`; `some name` means the loop
fell through with `name` as the (possibly repeatedly stripped) local name. -/
def nm_prefix_loop (v nja : Str) : List Str → Str → Option Str
  | [], name => some name
  | p :: ps, name =>
      if p.isPrefixOf v ∧ v.drop p.length = nja then none
      else if p.isPrefixOf name then
        if v = name.drop p.length then none
        else nm_prefix_loop v nja ps (name.drop p.length)
      else nm_prefix_loop v nja ps name

/-- The second loop of `name_matches` (source lines 337-342), over
`IGNORED_LINE_SUFFIXES`.  Each iteration tests the same `name` (the loop
does not shrink it) and returns `True` when the suffix matches and `v`
equals `name[:-len(suffix)]`. -/
def nm_suffix_loop (v : Str) : List Str → Str → Bool
  | [], _ => false
  | u :: us, name =>
      if u.isSuffixOf name ∧ v = name.take (name.length - u.length) then true
      else nm_suffix_loop v us name

/-- `OsmRelation.name_matches(v)` (source lines 316-345). -/
def name_matches (r : OsmRelation) (v : Str) : Bool :=
  if v = r.name_ja then true
  else if (match ALT_NAMES_get v with
           | some alts => !alts.isEmpty && alts.contains r.name_ja
           | none => false) then true
  else match nm_prefix_loop v r.name_ja IGNORED_LINE_PREFIXES r.name_ja with
       | none => true
       | some name => nm_suffix_loop v IGNORED_LINE_SUFFIXES name

/-! ### Operator directory (source lines 428-477) -/

/-- Python `x or y` for an optional string: `None` and the empty string are
falsy. -/
def py_or_str (x : Option Str) (y : Str) : Str :=
  match x with
  | some s => if s.isEmpty then y else s
  | none => y

/-- Python `str.strip()`: remove whitespace from both ends. -/
def py_strip (s : Str) : Str :=
  ((s.dropWhile Char.isWhitespace).reverse.dropWhile Char.isWhitespace).reverse

/-- `OperatorInfo` (source lines 428-460).  `name_en` is `Optional` because
the batch driver synthesises records whose English name comes from an
optional OSM tag. -/
structure OperatorInfo where
  name_en : Option Str
  name_ja : Str
  long_name_en : Option Str
  long_name_ja : Option Str
  alt_names : Finset Str
deriving DecidableEq

/-- One row of the operators CSV.  `csv.DictReader` yields strings (an empty
cell is the empty string). -/
structure OperatorRow where
  name_en : Str
  name_ja : Str
  long_name_en : Str
  long_name_ja : Str
  alt_names : Str
deriving DecidableEq

/-- `OperatorInfo.read_row` (source lines 438-447).  `row['alt_names'] or ''`
guards a falsy cell; `''.split('|')` is `['']`, so an empty cell yields the
singleton set containing the empty string. -/
def OperatorInfo.read_row (row : OperatorRow) : OperatorInfo :=
  { name_en := some row.name_en,
    name_ja := row.name_ja,
    long_name_en := some row.long_name_en,
    long_name_ja := some row.long_name_ja,
    alt_names := ((row.alt_names.splitOn '|').map py_strip).toFinset }

/-- `OperatorInfo.all_names` (source lines 449-460). -/
def OperatorInfo.all_names (o : OperatorInfo) : Finset Str :=
  (({o.name_ja} : Finset Str) ∪ o.name_en.elim ∅ (fun n => {n}))
    ∪ o.alt_names
    ∪ o.long_name_en.elim ∅ (fun n => {n})
    ∪ o.long_name_ja.elim ∅ (fun n => {n})

/-- `Operators.get_operator` (source lines 463-477).  The `_name_dict` is
built by iterating the operators in load order and writing every name of
each operator into a dict, so for any name the *last* loaded operator
holding that name wins; the dict lookup is therefore a backwards scan. -/
def get_operator (operators : List OperatorInfo) (name : Str) : Option OperatorInfo :=
  operators.reverse.find? (fun o => decide (name ∈ o.all_names))

/-! ### Batch matching driver (source lines 480-591) -/

/-- One row of the SFCardFan CSV, with the columns `read_osmdata` reads. -/
structure SfRow where
  src : Str
  company_name : Str
  line_name : Str
  station_name : Str
  area_code : Str
  line_code : Str
  station_code : Str
deriving DecidableEq

/-- The driver's memo slot: `last_company`, `last_line`, `last_rms`,
`last_operator_info` (source lines 492-495), populated together so they are
bundled; `none` models the initial `None`s. -/
structure Memo where
  company : Str
  line : Str
  rms : List OsmRelation
  op : Option OperatorInfo
deriving DecidableEq

/-- The matched record the driver emits for a resolved row (the `print`
block at source lines 578-587). -/
structure MatchedRecord where
  area_code : Str
  line_code : Str
  station_code : Str
  rm_id : ℕ
  rm_name_en : Option Str
  rm_name_ja : Str
  op_name_en : Option Str
  op_name_ja : Str
  station_id : ℕ
  station_name_en : Option Str
  station_name_ja : Str
  lat : ℚ
  lon : ℚ
deriving DecidableEq

/-- Outcome of processing one row: `skipped` models `continue`, `matched`
models the diagnostic record dump, `raised` models `raise ValueError`. -/
inductive RowResult where
  | skipped
  | matched (rec : MatchedRecord)
  | raised (msg : Str)
deriving DecidableEq

def suica_rail_tag : Str := "suica_rail".data

def no_route_master_msg : Str := "no route_master found".data

def index_error_msg : Str := "list index out of range".data

/-- The memo-hit test `last_company == company_name and last_line ==
line_name` (source line 521). -/
def memo_hit (memo : Option Memo) (company line : Str) : Bool :=
  match memo with
  | some m => decide (m.company = company) && decide (m.line = line)
  | none => false

/-- `route_masters()` (source lines 418-419): all relations flagged
route-master, in insertion order. -/
def route_masters (db : OsmDatabase) : List OsmRelation :=
  (db.relations.map (fun p => p.2)).filter (fun r => r.route_master)

/-- `routes()` (source lines 421-422). -/
def routes (db : OsmDatabase) : List OsmRelation :=
  (db.relations.map (fun p => p.2)).filter (fun r => r.route)

/-- The candidate scan (source lines 526-529): matching route masters first,
then matching routes. -/
def candidate_rels (db : OsmDatabase) (line : Str) : List OsmRelation :=
  (route_masters db).filter (fun m => name_matches m line)
    ++ (routes db).filter (fun m => name_matches m line)

/-- The recompute branch of the memo (source lines 524-543): scan for
candidates, fail (`raise ValueError`, modelled as `none`) when empty,
otherwise update the memo and look the company up in the operator
directory. -/
def fresh_candidates (db : OsmDatabase) (operators : List OperatorInfo)
    (company line : Str) : Option (List OsmRelation × Option OperatorInfo × Memo) :=
  match candidate_rels db line with
  | [] => none
  | rm :: rms =>
      some (rm :: rms, get_operator operators company,
        { company := company, line := line, rms := rm :: rms,
          op := get_operator operators company })

/-- Candidate resolution with the memo (source lines 521-543). -/
def lookup_candidates (db : OsmDatabase) (operators : List OperatorInfo)
    (memo : Option Memo) (company line : Str) :
    Option (List OsmRelation × Option OperatorInfo × Memo) :=
  match memo with
  | some m =>
      if m.company = company ∧ m.line = line then some (m.rms, m.op, m)
      else fresh_candidates db operators company line
  | none => fresh_candidates db operators company line

/-- The station collection loop (source lines 546-549): stations of every
candidate relation whose local name equals the normalised station name. -/
def collect_stations (db : OsmDatabase) (rms : List OsmRelation)
    (station_name : Str) : List OsmNode :=
  rms.flatMap (fun rm => (all_stops db rm).filter (fun s => decide (s.name_ja = station_name)))

/-- The tie-break (source lines 565-567): `stations.sort(key=lambda s:
s.osm_id)` then `stations[0]`.  Python's sort is stable and ascending on
the key; `none` corresponds to the empty list, which the driver already
skipped at line 551. -/
def select_station (stations : List OsmNode) : Option OsmNode :=
  (stations.insertionSort (fun a b => a.osm_id ≤ b.osm_id)).head?

/-- The ignore-word substring filter (source lines 507-511).  `all_names`
is `' '.join([company_name, line_name, station_name])`. -/
def has_ignored_word (company line station : Str) : Bool :=
  IGNORED_WORDS.any (fun w =>
    decide (w <:+: (company ++ ' ' :: line ++ ' ' :: station)))

/-- The exact ignore-word filter (source lines 512-514): `word in (a, b, c)`
is membership in the tuple, i.e. equality with one of the three fields. -/
def has_ignored_exact (company line station : Str) : Bool :=
  IGNORED_WORDS_EXACT.any (fun w =>
    decide (w = company) || decide (w = line) || decide (w = station))

/-- The operator synthesised from the matched relation when the directory
has no entry (source lines 571-574). -/
def synthesize_operator (rm : OsmRelation) (company : Str) : OperatorInfo :=
  { name_en := rm.operator_en,
    name_ja := py_or_str rm.operator_ja company,
    long_name_en := none,
    long_name_ja := none,
    alt_names := ∅ }

/-- The record the driver prints for a matched row (source lines 578-587). -/
def mk_record (row : SfRow) (rm : OsmRelation) (oi : OperatorInfo)
    (station : OsmNode) : MatchedRecord :=
  { area_code := row.area_code,
    line_code := row.line_code,
    station_code := row.station_code,
    rm_id := rm.osm_id,
    rm_name_en := rm.name_en,
    rm_name_ja := rm.name_ja,
    op_name_en := oi.name_en,
    op_name_ja := oi.name_ja,
    station_id := station.osm_id,
    station_name_en := station.name_en,
    station_name_ja := station.name_ja,
    lat := station.lat,
    lon := station.lon }

/-- The body of the row loop of `read_osmdata` (source lines 497-587),
processing one CSV row against the database, the operator directory and the
memo slot.  Returns the row outcome and the memo for the next row. -/
def processRow (db : OsmDatabase) (operators : List OperatorInfo)
    (memo : Option Memo) (row : SfRow) : RowResult × Option Memo :=
  if row.src ≠ suica_rail_tag then (.skipped, memo)
  else if has_ignored_word row.company_name (clean_sf_line row.line_name)
      (clean_sf_station row.station_name) then (.skipped, memo)
  else if has_ignored_exact row.company_name (clean_sf_line row.line_name)
      (clean_sf_station row.station_name) then (.skipped, memo)
  else
    match lookup_candidates db operators memo row.company_name
        (clean_sf_line row.line_name) with
    | none => (.raised no_route_master_msg, memo)
    | some (rms, operator_info, m') =>
        match select_station (collect_stations db rms
            (clean_sf_station row.station_name)) with
        | none => (.skipped, some m')
        | some station =>
            match rms.filter (fun r =>
                decide (station.osm_id ∈ all_stop_ids db.relGet r 0)) with
            | [] => (.raised index_error_msg, some m')
            | rm :: _ =>
                match operator_info with
                | some oi => (.matched (mk_record row rm oi station), some m')
                | none =>
                    (.matched (mk_record row rm
                        (synthesize_operator rm row.company_name) station),
                      some { m' with op := some (synthesize_operator rm row.company_name) })

/-- The row loop of `read_osmdata` (source lines 497-587): rows processed
in order, threading the memo; a raise aborts the run, skips contribute
nothing, matched records are collected in order. -/
def runBatch (db : OsmDatabase) (operators : List OperatorInfo) :
    Option Memo → List SfRow → Except Str (List MatchedRecord)
  | _, [] => .ok []
  | memo, row :: rest =>
      match processRow db operators memo row with
      | (.raised msg, _) => .error msg
      | (.skipped, memo') => runBatch db operators memo' rest
      | (.matched rec, memo') =>
          match runBatch db operators memo' rest with
          | .ok recs => .ok (rec :: recs)
          | .error e => .error e

/-! ### Theorems -/

theorem mem_all_stop_ids_gas (dbRel : ℕ → Option OsmRelation) :
    ∀ (g : ℕ) (r : OsmRelation) (s : ℕ),
    s ∈ all_stop_ids_gas dbRel g r ↔ StopReachable dbRel r s g := by
  intro g
  induction g with
  | zero =>
      intro r s
      constructor
      · intro h
        exact .direct r s 0 h
      · intro h
        cases h with
        | direct _ _ _ h => exact h
  | succ g ih =>
      intro r s
      simp only [all_stop_ids_gas, Finset.mem_union, Finset.mem_biUnion]
      constructor
      · rintro (h | ⟨i, hi, hmem⟩)
        · exact .direct r s _ h
        · cases hc : dbRel i with
          | none => rw [hc] at hmem; simp at hmem
          | some c =>
              rw [hc] at hmem
              exact .child r c i s g hi hc ((ih c s).1 hmem)
      · intro h
        cases h with
        | direct _ _ _ h => exact Or.inl h
        | child _ c i _ _ hi hc hr =>
            exact Or.inr ⟨i, hi, by rw [hc]; exact (ih c s).2 hr⟩

/-- C1: for every graph (including graphs whose child-relation references
form cycles, and relations with dangling child references), `all_stop_ids`
at the entry depth `0` is a total function (so it terminates and cannot
raise) returning a `Finset` (so each identifier occurs exactly once) whose
members are exactly the stop identifiers reachable through existing child
relations within 10 hops; identifiers only reachable beyond that depth are
not included. -/
theorem C1_all_stop_ids_eq_reachable_within_bound
    (dbRel : ℕ → Option OsmRelation) (r : OsmRelation) (s : ℕ) :
    s ∈ all_stop_ids dbRel r 0 ↔ StopReachable dbRel r s 10 :=
  mem_all_stop_ids_gas dbRel 10 r s

theorem snoc_suffix_snoc_iff {a b : Char} (u r : Str) :
    (u ++ [a]) <:+ (r ++ [b]) ↔ a = b ∧ u <:+ r := by
  constructor
  · intro h
    have h' : (u ++ [a]).reverse <+: (r ++ [b]).reverse := List.reverse_prefix.mpr h
    simp only [List.reverse_append, List.reverse_cons, List.reverse_nil,
      List.nil_append, List.singleton_append] at h'
    obtain ⟨hab, hur⟩ := List.cons_prefix_cons.mp h'
    exact ⟨hab, List.reverse_prefix.mp hur⟩
  · rintro ⟨rfl, t, rfl⟩
    exact ⟨t, by simp⟩

theorem junk_char_not_mem_remove_junk_chars (s : Str) :
    '・' ∉ remove_junk_chars s := by
  show '・' ∉ (if s.contains '・' then s.filter (fun a => a != '・') else s)
  split
  · intro hmem
    have hp := List.of_mem_filter hmem
    simp at hp
  · next h =>
    intro hmem
    exact h (by simpa using hmem)

theorem remove_junk_chars_of_not_mem (s : Str) (h : '・' ∉ s) :
    remove_junk_chars s = s := by
  show (if s.contains '・' then s.filter (fun a => a != '・') else s) = s
  rw [if_neg]
  simp [h]

/-- Any string that has no junk character, does not start with the brand
letters, and does not end with a character that could complete one of the
recognised suffixes once the line marker is re-appended, is a fixed point
of `clean_sf_line`. -/
theorem clean_sf_line_fixed (r : Str) (hj : '・' ∉ r)
    (h1 : ¬ ("JR".data <+: r)) (h2 : ¬ (LINE <:+ r))
    (h3 : ¬ (HON <:+ r)) (h4 : ¬ (RAILWAY <:+ r)) :
    clean_sf_line r = r := by
  have e1 : ensure_line_marker r = r ++ ['線'] := by
    have hns : ¬ (LINE.isSuffixOf r = true) := by
      simpa only [List.isSuffixOf_iff_suffix] using h2
    rw [ensure_line_marker, if_neg hns]
    rfl
  have hp1 : ¬ (("JR ".data).isPrefixOf (r ++ ['線']) = true) := by
    simp only [List.isPrefixOf_iff_prefix]
    intro hpre
    rcases List.prefix_concat_iff.mp hpre with heq | hpre'
    · have hlast := congrArg List.getLast? heq
      rw [List.getLast?_concat] at hlast
      simp at hlast
    · exact h1 (List.IsPrefix.trans ⟨[' '], rfl⟩ hpre')
  have hp2 : ¬ (("JR".data).isPrefixOf (r ++ ['線']) = true) := by
    simp only [List.isPrefixOf_iff_prefix]
    intro hpre
    rcases List.prefix_concat_iff.mp hpre with heq | hpre'
    · have hlast := congrArg List.getLast? heq
      rw [List.getLast?_concat] at hlast
      simp at hlast
    · exact h1 hpre'
  have e2 : strip_line_prefixes (r ++ ['線']) = r ++ ['線'] := by
    rw [strip_line_prefixes]
    simp only [IGNORED_LINE_PREFIXES, List.foldl_cons, List.foldl_nil]
    rw [if_neg hp1, if_neg hp2]
  have c1 : ¬ (MAIN_LINE.isSuffixOf (r ++ ['線']) = true) := by
    simp only [List.isSuffixOf_iff_suffix]
    intro h
    have h' : (['本'] ++ ['線']) <:+ (r ++ ['線']) := h
    exact h3 ((snoc_suffix_snoc_iff ['本'] r).mp h').2
  have c2 : ¬ (RAPID_LINE.isSuffixOf (r ++ ['線']) = true) := by
    simp only [List.isSuffixOf_iff_suffix]
    intro h
    have h' : (['線', '快'] ++ ['速']) <:+ (r ++ ['線']) := h
    have := ((snoc_suffix_snoc_iff ['線', '快'] r).mp h').1
    simp at this
  have c3 : ¬ (RAILWAY_LINE.isSuffixOf (r ++ ['線']) = true) := by
    simp only [List.isSuffixOf_iff_suffix]
    intro h
    have h' : (['鉄', '道'] ++ ['線']) <:+ (r ++ ['線']) := h
    exact h4 ((snoc_suffix_snoc_iff ['鉄', '道'] r).mp h').2
  have c4 : ¬ (RAILWAY.isSuffixOf (r ++ ['線']) = true) := by
    simp only [List.isSuffixOf_iff_suffix]
    intro h
    have h' : (['鉄'] ++ ['道']) <:+ (r ++ ['線']) := h
    have := ((snoc_suffix_snoc_iff ['鉄'] r).mp h').1
    simp at this
  have c5 : ¬ (HON.isSuffixOf (r ++ ['線']) = true) := by
    simp only [List.isSuffixOf_iff_suffix]
    intro h
    have h' : (([] : Str) ++ ['本']) <:+ (r ++ ['線']) := h
    have := ((snoc_suffix_snoc_iff [] r).mp h').1
    simp at this
  have c6 : LINE.isSuffixOf (r ++ ['線']) = true := by
    simp only [List.isSuffixOf_iff_suffix]
    exact List.suffix_append r ['線']
  have e3 : strip_line_suffixes (r ++ ['線']) = r := by
    rw [strip_line_suffixes]
    simp only [IGNORED_LINE_SUFFIXES, List.foldl_cons, List.foldl_nil]
    rw [if_neg c1, if_neg c2, if_neg c3, if_neg c4, if_neg c5, if_pos c6]
    have hlen : (r ++ ['線']).length - LINE.length = r.length := by
      simp [LINE]
    rw [hlen, List.take_left r ['線']]
  rw [clean_sf_line, e1, e2, e3, remove_junk_chars_of_not_mem r hj]

/-- C3 counterexample: `clean_sf_line` is not idempotent.  The input
`"線線"` already ends with the line marker, so no marker is appended and
one `"線"` suffix is stripped, giving `"線"`; a second application appends
nothing, strips the remaining `"線"`, and yields the empty string. -/
theorem C3_counterexample_not_idempotent :
    clean_sf_line (clean_sf_line ("線線".data)) ≠ clean_sf_line ("線線".data) := by
  decide

/-- C3 (amended): `clean_sf_line` is idempotent on every input whose
normalised form does not start with the brand letters `"JR"` and does not
end with `"線"`, `"本"` or `"鉄道"` (endings which the second pass would
strip again after re-appending the line marker).  On other inputs
idempotence can fail, as `C3_counterexample_not_idempotent` shows. -/
theorem C3_clean_sf_line_idempotent_on_stable_outputs (x : Str)
    (h1 : ("JR".data).isPrefixOf (clean_sf_line x) = false)
    (h2 : LINE.isSuffixOf (clean_sf_line x) = false)
    (h3 : HON.isSuffixOf (clean_sf_line x) = false)
    (h4 : RAILWAY.isSuffixOf (clean_sf_line x) = false) :
    clean_sf_line (clean_sf_line x) = clean_sf_line x := by
  apply clean_sf_line_fixed
  · rw [clean_sf_line]
    exact junk_char_not_mem_remove_junk_chars _
  · intro h
    have hh := List.isPrefixOf_iff_prefix.mpr h
    rw [h1] at hh
    exact Bool.noConfusion hh
  · intro h
    have hh := List.isSuffixOf_iff_suffix.mpr h
    rw [h2] at hh
    exact Bool.noConfusion hh
  · intro h
    have hh := List.isSuffixOf_iff_suffix.mpr h
    rw [h3] at hh
    exact Bool.noConfusion hh
  · intro h
    have hh := List.isSuffixOf_iff_suffix.mpr h
    rw [h4] at hh
    exact Bool.noConfusion hh

theorem C3_witness :
    ("JR".data).isPrefixOf (clean_sf_line ("山手".data)) = false ∧
    LINE.isSuffixOf (clean_sf_line ("山手".data)) = false ∧
    HON.isSuffixOf (clean_sf_line ("山手".data)) = false ∧
    RAILWAY.isSuffixOf (clean_sf_line ("山手".data)) = false ∧
    clean_sf_line (clean_sf_line ("山手".data)) = clean_sf_line ("山手".data) :=
  ⟨by decide, by decide, by decide, by decide,
    C3_clean_sf_line_idempotent_on_stable_outputs ("山手".data)
      (by decide) (by decide) (by decide) (by decide)⟩

/-! ### C4: affix-stripping discipline of the line normaliser -/

/-- Strip the first matching entry of an affix list from the front, and
nothing else.  Modelled from the spec: "checked in a fixed priority order,
first match wins, at most one prefix stripped". -/
def strip_first_matching_head (ps : List Str) (s : Str) : Str :=
  match ps.find? (fun p => p.isPrefixOf s) with
  | some p => s.drop p.length
  | none => s

/-- Strip the first matching entry of an affix list from the back, and
nothing else.  Modelled from the spec: "longest/most specific checked
first, at most one suffix stripped after the marker-ensure step". -/
def strip_first_matching_tail (us : List Str) (s : Str) : Str :=
  match us.find? (fun u => u.isSuffixOf s) with
  | some u => s.take (s.length - u.length)
  | none => s

/-- Modelled from the spec (§4.3): the line normaliser as the claim
describes it, stripping at most one recognised brand prefix and at most one
recognised suffix. -/
def clean_sf_line_spec (i : Str) : Str :=
  remove_junk_chars (strip_first_matching_tail IGNORED_LINE_SUFFIXES
    (strip_first_matching_head IGNORED_LINE_PREFIXES (ensure_line_marker i)))

/-- The head-stripping pass relation: `HeadStripPass ps s t` holds when `t`
is obtained from `s` by walking the affix list `ps` in order and removing,
for each entry, either nothing or exactly one occurrence of that entry from
the front. -/
inductive HeadStripPass : List Str → Str → Str → Prop where
  | nil (s : Str) : HeadStripPass [] s s
  | keep (p : Str) (ps : List Str) (s t : Str) :
      HeadStripPass ps s t → HeadStripPass (p :: ps) s t
  | strip (p : Str) (ps : List Str) (s t : Str) :
      HeadStripPass ps s t → HeadStripPass (p :: ps) (p ++ s) t

/-- The tail-stripping pass relation: like `HeadStripPass`, but each entry
may remove one occurrence of itself from the back. -/
inductive TailStripPass : List Str → Str → Str → Prop where
  | nil (s : Str) : TailStripPass [] s s
  | keep (u : Str) (us : List Str) (s t : Str) :
      TailStripPass us s t → TailStripPass (u :: us) s t
  | strip (u : Str) (us : List Str) (s t : Str) :
      TailStripPass us s t → TailStripPass (u :: us) (s ++ u) t

theorem head_strip_pass_foldl : ∀ (ps : List Str) (s : Str),
    HeadStripPass ps s
      (ps.foldl (fun s p => if p.isPrefixOf s then s.drop p.length else s) s) := by
  intro ps
  induction ps with
  | nil => intro s; exact .nil s
  | cons p ps ih =>
      intro s
      rw [List.foldl_cons]
      by_cases h : p.isPrefixOf s = true
      · obtain ⟨t, rfl⟩ : ∃ t, s = p ++ t := by
          obtain ⟨t, ht⟩ := List.isPrefixOf_iff_prefix.mp h
          exact ⟨t, ht.symm⟩
        rw [if_pos h, List.drop_left]
        exact .strip p ps t _ (ih t)
      · rw [if_neg h]
        exact .keep p ps s _ (ih s)

theorem tail_strip_pass_foldl : ∀ (us : List Str) (s : Str),
    TailStripPass us s
      (us.foldl (fun s u => if u.isSuffixOf s then s.take (s.length - u.length) else s) s) := by
  intro us
  induction us with
  | nil => intro s; exact .nil s
  | cons u us ih =>
      intro s
      rw [List.foldl_cons]
      by_cases h : u.isSuffixOf s = true
      · obtain ⟨t, rfl⟩ : ∃ t, s = t ++ u := by
          obtain ⟨t, ht⟩ := List.isSuffixOf_iff_suffix.mp h
          exact ⟨t, ht.symm⟩
        have hlen : (t ++ u).length - u.length = t.length := by simp
        rw [if_pos h, hlen, List.take_left]
        exact .strip u us t _ (ih t)
      · rw [if_neg h]
        exact .keep u us s _ (ih s)

/-- C4 counterexample: `clean_sf_line` does not strip at most one suffix.
On `"あ線本線"` the suffix loop first strips `"本線"` and then also strips
`"線"`, so the result differs from the spec-modelled single-strip
normaliser. -/
theorem C4_counterexample_strips_more_than_one :
    clean_sf_line ("あ線本線".data) ≠ clean_sf_line_spec ("あ線本線".data) := by
  decide

/-- C4 (amended): for every input, after the marker-ensure step the
normaliser walks the fixed prefix list in priority order and strips, for
each listed prefix, at most one occurrence (so both `"JR "` and `"JR"` can
be stripped from one name), and then walks the fixed suffix list in order
and strips, for each listed suffix, at most one occurrence (so several
suffixes can be stripped in cascade); junk-character removal follows.  The
claim's stronger "at most one prefix and at most one suffix overall" fails,
see `C4_counterexample_strips_more_than_one`. -/
theorem C4_strip_passes (i : Str) :
    HeadStripPass IGNORED_LINE_PREFIXES (ensure_line_marker i)
      (strip_line_prefixes (ensure_line_marker i)) ∧
    TailStripPass IGNORED_LINE_SUFFIXES (strip_line_prefixes (ensure_line_marker i))
      (strip_line_suffixes (strip_line_prefixes (ensure_line_marker i))) ∧
    clean_sf_line i =
      remove_junk_chars (strip_line_suffixes (strip_line_prefixes (ensure_line_marker i))) :=
  ⟨head_strip_pass_foldl IGNORED_LINE_PREFIXES (ensure_line_marker i),
   tail_strip_pass_foldl IGNORED_LINE_SUFFIXES (strip_line_prefixes (ensure_line_marker i)),
   rfl⟩

/-! ### C2: the exception-table rule of `name_matches` -/

def relation_tokaido : OsmRelation :=
  { osm_id := 1, route_master := true, route := false, name_en := none,
    name_ja := "東海道本線".data, stop_ids := ∅, relation_ids := ∅,
    wikidata := none, operator_en := none, operator_ja := none }

/-- C2 counterexample: `"JR琵琶湖線"` is registered in `ALT_NAMES` as an
alternate of the canonical name `"東海道本線"`, yet querying a relation
declared with the canonical name using the alternate spelling does NOT
match: the code looks the *query* up as the canonical key and compares the
relation's name against the alternates, not the other way round. -/
theorem C2_counterexample_alternate_query_fails :
    ("JR琵琶湖線".data ∈ (ALT_NAMES_get relation_tokaido.name_ja).getD []) ∧
    name_matches relation_tokaido ("JR琵琶湖線".data) = false := by
  decide

/-- C2 (amended): the exception-table rule fires in the opposite direction
to the claim: when the *query* `v` is a canonical key of the table and the
*relation's* local name is registered among its alternates, `name_matches`
returns true. -/
theorem C2_alt_table_matches_canonical_query (r : OsmRelation) (v : Str)
    (alts : List Str) (hget : ALT_NAMES_get v = some alts)
    (hmem : r.name_ja ∈ alts) :
    name_matches r v = true := by
  rw [name_matches]
  by_cases hv : v = r.name_ja
  · rw [if_pos hv]
  · have hcond : (match ALT_NAMES_get v with
        | some alts => !alts.isEmpty && alts.contains r.name_ja
        | none => false) = true := by
      rw [hget]
      show (!alts.isEmpty && alts.contains r.name_ja) = true
      have h1 : alts.isEmpty = false := by
        cases alts with
        | nil => cases hmem
        | cons a as => rfl
      have h2 : alts.contains r.name_ja = true := by simpa using hmem
      rw [h1, h2]
      rfl
    rw [if_neg hv, if_pos hcond]

def relation_biwako : OsmRelation :=
  { osm_id := 1, route_master := true, route := false, name_en := none,
    name_ja := "JR琵琶湖線".data, stop_ids := ∅, relation_ids := ∅,
    wikidata := none, operator_en := none, operator_ja := none }

theorem C2_witness :
    ALT_NAMES_get ("東海道本線".data) =
      some [ "JR東北本線".data, "JR京浜東北線".data, "JR湘南新宿ライン".data,
        "JR琵琶湖線".data ] ∧
    relation_biwako.name_ja ∈
      [ "JR東北本線".data, "JR京浜東北線".data, "JR湘南新宿ライン".data,
        "JR琵琶湖線".data ] ∧
    name_matches relation_biwako ("東海道本線".data) = true :=
  ⟨by decide, by decide,
    C2_alt_table_matches_canonical_query relation_biwako ("東海道本線".data)
      [ "JR東北本線".data, "JR京浜東北線".data, "JR湘南新宿ライン".data,
        "JR琵琶湖線".data ] (by decide) (by decide)⟩

/-! ### C5: the suffix-equivalence rule of `name_matches` -/

theorem nm_prefix_loop_result (v nja : Str) : ∀ (ps : List Str) (name : Str),
    nm_prefix_loop v nja ps name = none ∨
    nm_prefix_loop v nja ps name =
      some (ps.foldl (fun s p => if p.isPrefixOf s then s.drop p.length else s) name) := by
  intro ps
  induction ps with
  | nil => intro name; right; rfl
  | cons p ps ih =>
      intro name
      simp only [nm_prefix_loop]
      by_cases h1 : (p.isPrefixOf v ∧ v.drop p.length = nja)
      · left
        rw [if_pos h1]
      · rw [if_neg h1]
        by_cases h2 : p.isPrefixOf name = true
        · rw [if_pos h2]
          by_cases h3 : v = name.drop p.length
          · left
            rw [if_pos h3]
          · rw [if_neg h3, List.foldl_cons, if_pos h2]
            exact ih (name.drop p.length)
        · rw [if_neg h2, List.foldl_cons, if_neg h2]
          exact ih name

theorem nm_suffix_loop_hit (v : Str) : ∀ (us : List Str) (name u : Str),
    u ∈ us → u.isSuffixOf name = true → v = name.take (name.length - u.length) →
    nm_suffix_loop v us name = true := by
  intro us
  induction us with
  | nil =>
      intro name u hmem
      cases hmem
  | cons w ws ih =>
      intro name u hmem hsuf hval
      simp only [nm_suffix_loop]
      by_cases hc : (w.isSuffixOf name ∧ v = name.take (name.length - w.length))
      · rw [if_pos hc]
      · rw [if_neg hc]
        rcases List.mem_cons.mp hmem with rfl | hmem'
        · exact absurd ⟨hsuf, hval⟩ hc
        · exact ih name u hmem' hsuf hval

/-- C5 counterexample: the relation `"JR山手線"` with the recognised suffix
`"線"` stripped is `"JR山手"`, but `name_matches` on that query returns
false: the suffix rule compares the query against the relation's name only
after the brand-prefix loop has already stripped `"JR"` from it. -/
theorem C5_counterexample_suffix_on_raw_name_fails :
    (LINE ∈ IGNORED_LINE_SUFFIXES ∧
     LINE.isSuffixOf ("JR山手線".data) = true ∧
     "JR山手".data = ("JR山手線".data).take (("JR山手線".data).length - LINE.length) ∧
     ("JR山手線".data) =
       ({ osm_id := 2, route_master := true, route := false, name_en := none,
          name_ja := "JR山手線".data, stop_ids := ∅, relation_ids := ∅,
          wikidata := none, operator_en := none,
          operator_ja := none } : OsmRelation).name_ja) ∧
    name_matches
      { osm_id := 2, route_master := true, route := false, name_en := none,
        name_ja := "JR山手線".data, stop_ids := ∅, relation_ids := ∅,
        wikidata := none, operator_en := none, operator_ja := none }
      ("JR山手".data) = false := by
  decide

/-- C5 (amended): if the relation's local name, first passed through the
brand-prefix-stripping loop and then with one recognised suffix stripped,
equals the query `v`, then `name_matches` returns true.  (The claim as
stated, which strips the suffix from the raw local name, fails when the
name carries a brand prefix: see `C5_counterexample_suffix_on_raw_name_fails`.) -/
theorem C5_suffix_equivalence_after_brand_strip (r : OsmRelation) (v u : Str)
    (hu : u ∈ IGNORED_LINE_SUFFIXES)
    (hsuf : u.isSuffixOf (strip_line_prefixes r.name_ja) = true)
    (hv : v = (strip_line_prefixes r.name_ja).take
      ((strip_line_prefixes r.name_ja).length - u.length)) :
    name_matches r v = true := by
  rw [name_matches]
  by_cases h1 : v = r.name_ja
  · rw [if_pos h1]
  · rw [if_neg h1]
    by_cases h2 : (match ALT_NAMES_get v with
        | some alts => !alts.isEmpty && alts.contains r.name_ja
        | none => false) = true
    · rw [if_pos h2]
    · rw [if_neg h2]
      rcases nm_prefix_loop_result v r.name_ja IGNORED_LINE_PREFIXES r.name_ja
        with hres | hres
      · rw [hres]
      · rw [hres]
        exact nm_suffix_loop_hit v IGNORED_LINE_SUFFIXES _ u hu hsuf hv

def relation_yamanote : OsmRelation :=
  { osm_id := 3, route_master := true, route := false, name_en := none,
    name_ja := "山手線".data, stop_ids := ∅, relation_ids := ∅,
    wikidata := none, operator_en := none, operator_ja := none }

theorem C5_witness :
    (LINE ∈ IGNORED_LINE_SUFFIXES ∧
     LINE.isSuffixOf (strip_line_prefixes relation_yamanote.name_ja) = true ∧
     "山手".data = (strip_line_prefixes relation_yamanote.name_ja).take
       ((strip_line_prefixes relation_yamanote.name_ja).length - LINE.length)) ∧
    name_matches relation_yamanote ("山手".data) = true :=
  ⟨⟨by decide, by decide, by decide⟩,
    C5_suffix_equivalence_after_brand_strip relation_yamanote ("山手".data) LINE
      (by decide) (by decide) (by decide)⟩

/-! ### C6: deterministic station tie-break -/

/-- C6: when the driver's station-selection step returns a node, that node
has the smallest identifier among all candidate stops collected (across the
candidate relations) with the requested local name; in particular, among
candidates with identifiers 5 and 3 it selects 3 (see `C6_witness`). -/
theorem C6_tie_break_smallest_id (db : OsmDatabase) (rms : List OsmRelation)
    (station_name : Str) (s : OsmNode)
    (h : select_station (collect_stations db rms station_name) = some s) :
    ∀ t ∈ collect_stations db rms station_name, s.osm_id ≤ t.osm_id := by
  intro t ht
  rw [select_station] at h
  haveI : IsTotal OsmNode (fun a b => a.osm_id ≤ b.osm_id) :=
    ⟨fun a b => Nat.le_total _ _⟩
  haveI : IsTrans OsmNode (fun a b => a.osm_id ≤ b.osm_id) :=
    ⟨fun a b c => Nat.le_trans⟩
  have hsorted := List.sorted_insertionSort (fun a b : OsmNode => a.osm_id ≤ b.osm_id)
    (collect_stations db rms station_name)
  have hperm := List.perm_insertionSort (fun a b : OsmNode => a.osm_id ≤ b.osm_id)
    (collect_stations db rms station_name)
  cases hs : (collect_stations db rms station_name).insertionSort
      (fun a b => a.osm_id ≤ b.osm_id) with
  | nil =>
      rw [hs] at h
      cases h
  | cons a tl =>
      rw [hs] at h
      have hsa : s = a := by
        simp only [List.head?] at h
        exact (Option.some.inj h).symm
      have ht' : t ∈ a :: tl := by
        rw [← hs]
        exact hperm.mem_iff.mpr ht
      rcases List.mem_cons.mp ht' with rfl | htl
      · rw [hsa]
      · rw [hsa]
        rw [hs] at hsorted
        exact List.rel_of_sorted_cons hsorted t htl

def wit_node_three : OsmNode :=
  { osm_id := 3, lat := 0, lon := 0, name_en := none,
    name_ja := "新宿".data, wikidata := none }

def wit_node_five : OsmNode :=
  { osm_id := 5, lat := 0, lon := 0, name_en := none,
    name_ja := "新宿".data, wikidata := none }

def wit_rel_c6 : OsmRelation :=
  { osm_id := 7, route_master := true, route := false, name_en := none,
    name_ja := "山手線".data, stop_ids := {5, 3}, relation_ids := ∅,
    wikidata := none, operator_en := none, operator_ja := none }

def wit_db_c6 : OsmDatabase :=
  { nodes := [(3, wit_node_three), (5, wit_node_five)],
    relations := [(7, wit_rel_c6)] }

theorem C6_witness :
    select_station (collect_stations wit_db_c6 [wit_rel_c6] ("新宿".data)) =
      some wit_node_three ∧
    (∀ t ∈ collect_stations wit_db_c6 [wit_rel_c6] ("新宿".data),
      wit_node_three.osm_id ≤ t.osm_id) :=
  ⟨by decide,
    C6_tie_break_smallest_id wit_db_c6 [wit_rel_c6] ("新宿".data) wit_node_three
      (by decide)⟩

/-! ### C7: unresolved station skips the row -/

/-- C7: when a candidate relation set is resolved (via the memo or a fresh
scan) but no stop of any candidate carries the normalised station name, the
driver's outcome for that row is `skipped` (the `continue` at source line
557): no exception is raised, no record is emitted, and the batch proceeds
with the following rows under the updated memo. -/
theorem C7_unresolved_station_skips (db : OsmDatabase)
    (operators : List OperatorInfo) (memo : Option Memo) (row : SfRow)
    (rest : List SfRow) (rms : List OsmRelation) (oi : Option OperatorInfo)
    (m' : Memo)
    (hsrc : row.src = suica_rail_tag)
    (hw : has_ignored_word row.company_name (clean_sf_line row.line_name)
      (clean_sf_station row.station_name) = false)
    (he : has_ignored_exact row.company_name (clean_sf_line row.line_name)
      (clean_sf_station row.station_name) = false)
    (hc : lookup_candidates db operators memo row.company_name
      (clean_sf_line row.line_name) = some (rms, oi, m'))
    (hs : collect_stations db rms (clean_sf_station row.station_name) = []) :
    processRow db operators memo row = (.skipped, some m') ∧
    runBatch db operators memo (row :: rest) = runBatch db operators (some m') rest := by
  have hsel : select_station (collect_stations db rms
      (clean_sf_station row.station_name)) = none := by
    rw [hs]
    rfl
  have hpr : processRow db operators memo row = (.skipped, some m') := by
    unfold processRow
    rw [if_neg (fun hne => hne hsrc)]
    rw [if_neg (by rw [hw]; exact Bool.false_ne_true)]
    rw [if_neg (by rw [he]; exact Bool.false_ne_true)]
    simp only [hc, hsel]
  exact ⟨hpr, by simp only [runBatch, hpr]⟩

def wit_rel_c7 : OsmRelation :=
  { osm_id := 9, route_master := true, route := false, name_en := none,
    name_ja := "乙".data, stop_ids := {1}, relation_ids := ∅,
    wikidata := none, operator_en := none, operator_ja := none }

def wit_db_c7 : OsmDatabase :=
  { nodes := [], relations := [(9, wit_rel_c7)] }

def wit_row_c7 : SfRow :=
  { src := "suica_rail".data, company_name := "甲".data,
    line_name := "乙".data, station_name := "丙駅".data,
    area_code := "1".data, line_code := "2".data, station_code := "3".data }

def wit_memo_c7 : Memo :=
  { company := "甲".data, line := "乙".data, rms := [wit_rel_c7], op := none }

theorem C7_witness :
    processRow wit_db_c7 [] none wit_row_c7 = (.skipped, some wit_memo_c7) ∧
    runBatch wit_db_c7 [] none (wit_row_c7 :: [wit_row_c7]) =
      runBatch wit_db_c7 [] (some wit_memo_c7) [wit_row_c7] :=
  C7_unresolved_station_skips wit_db_c7 [] none wit_row_c7 [wit_row_c7]
    [wit_rel_c7] none wit_memo_c7 (by decide) (by decide) (by decide)
    (by decide) (by decide)

/-! ### C8: unresolved line aborts the batch -/

/-- C8: when the row passes the source and ignore-word filters, is not a
memo hit, and no route master and no route matches the normalised line
name, the driver raises (`raise ValueError('no route_master found')`,
source line 537) and the batch run aborts with that error, regardless of
the remaining rows. -/
theorem C8_unresolved_line_aborts (db : OsmDatabase)
    (operators : List OperatorInfo) (memo : Option Memo) (row : SfRow)
    (rest : List SfRow)
    (hsrc : row.src = suica_rail_tag)
    (hw : has_ignored_word row.company_name (clean_sf_line row.line_name)
      (clean_sf_station row.station_name) = false)
    (he : has_ignored_exact row.company_name (clean_sf_line row.line_name)
      (clean_sf_station row.station_name) = false)
    (hm : memo_hit memo row.company_name (clean_sf_line row.line_name) = false)
    (hc : candidate_rels db (clean_sf_line row.line_name) = []) :
    runBatch db operators memo (row :: rest) = .error no_route_master_msg := by
  have hfresh : fresh_candidates db operators row.company_name
      (clean_sf_line row.line_name) = none := by
    rw [fresh_candidates]
    simp only [hc]
  have hlook : lookup_candidates db operators memo row.company_name
      (clean_sf_line row.line_name) = none := by
    cases memo with
    | none => exact hfresh
    | some m =>
        have hne : ¬(m.company = row.company_name ∧
            m.line = clean_sf_line row.line_name) := by
          rintro ⟨ha, hb⟩
          simp [memo_hit, ha, hb] at hm
        simp only [lookup_candidates]
        rw [if_neg hne]
        exact hfresh
  have hpr : processRow db operators memo row =
      (.raised no_route_master_msg, memo) := by
    unfold processRow
    rw [if_neg (fun hne => hne hsrc)]
    rw [if_neg (by rw [hw]; exact Bool.false_ne_true)]
    rw [if_neg (by rw [he]; exact Bool.false_ne_true)]
    simp only [hlook]
  simp only [runBatch, hpr]

def wit_db_c8 : OsmDatabase := { nodes := [], relations := [] }

def wit_row_c8 : SfRow :=
  { src := "suica_rail".data, company_name := "甲".data,
    line_name := "乙".data, station_name := "丙駅".data,
    area_code := "1".data, line_code := "2".data, station_code := "3".data }

theorem C8_witness :
    runBatch wit_db_c8 [] none (wit_row_c8 :: [wit_row_c8]) =
      .error no_route_master_msg :=
  C8_unresolved_line_aborts wit_db_c8 [] none wit_row_c8 [wit_row_c8]
    (by decide) (by decide) (by decide) (by decide) (by decide)

/-! ### C9: the legacy direct-stop accessor and dangling stop ids -/

def rel_dangling_stop : OsmRelation :=
  { osm_id := 4, route_master := false, route := true, name_en := none,
    name_ja := "甲線".data, stop_ids := {42}, relation_ids := ∅,
    wikidata := none, operator_en := none, operator_ja := none }

def db_without_node42 : OsmDatabase := { nodes := [], relations := [] }

/-- C9 (evaluating the code at the failing input): relation with direct
stop id 42 and no node 42 in the graph.  Contrary to the claim (and to the
`stops` docstring "If the stop id could not be found, returns int"), the
`stops` property yields nothing at all for the unresolved id — its helper
`_lookup_stops` silently skips ids whose lookup fails — so the unresolved
identifier never surfaces, and the result is empty rather than containing
the raw integer 42. -/
theorem C9_stops_drops_unresolved_ids :
    42 ∈ rel_dangling_stop.stop_ids ∧
    db_without_node42.nodesGet 42 = none ∧
    stops db_without_node42 rel_dangling_stop = [] := by
  decide

/-! ### C10: empty alternate-name cells of the operator table -/

/-- C10: a row whose `alt_names` cell is empty parses to an operator whose
alias set contains the empty string (`''.split('|') == ['']`), and the
directory's reverse index therefore contains the empty string as a key:
looking up the empty string returns the last-loaded such operator record
(last-write-wins on the index) rather than no result. -/
theorem C10_empty_alt_names_pollutes_index (rows : List OperatorRow)
    (final_row : OperatorRow) (h : final_row.alt_names = []) :
    ([] : Str) ∈ (OperatorInfo.read_row final_row).alt_names ∧
    get_operator ((rows ++ [final_row]).map OperatorInfo.read_row) [] =
      some (OperatorInfo.read_row final_row) := by
  have hmem : ([] : Str) ∈ (OperatorInfo.read_row final_row).alt_names := by
    show ([] : Str) ∈ ((final_row.alt_names.splitOn '|').map py_strip).toFinset
    rw [h]
    decide
  refine ⟨hmem, ?_⟩
  have hall : ([] : Str) ∈ (OperatorInfo.read_row final_row).all_names := by
    rw [OperatorInfo.all_names]
    rw [Finset.mem_union, Finset.mem_union, Finset.mem_union]
    exact Or.inl (Or.inl (Or.inr hmem))
  rw [get_operator, List.map_append, List.reverse_append]
  simp only [List.map_cons, List.map_nil, List.reverse_cons, List.reverse_nil,
    List.nil_append, List.singleton_append, List.find?_cons]
  rw [decide_eq_true hall]

def wit_oprow_c10 : OperatorRow :=
  { name_en := "a".data, name_ja := "b".data,
    long_name_en := "c".data, long_name_ja := "d".data, alt_names := [] }

theorem C10_witness :
    wit_oprow_c10.alt_names = [] ∧
    (([] : Str) ∈ (OperatorInfo.read_row wit_oprow_c10).alt_names ∧
     get_operator (([] ++ [wit_oprow_c10]).map OperatorInfo.read_row) [] =
       some (OperatorInfo.read_row wit_oprow_c10)) :=
  ⟨rfl, C10_empty_alt_names_pollutes_index [] wit_oprow_c10 rfl⟩
